import Mathlib

/-!
Verification development for the vercel-duck serverless DuckAI proxy
(`src/api/ask.js`).

The embedding models decoded stream text as `List Char`, and the raw
upstream byte stream as `List Nat` chunks that the `data` handler decodes
per chunk (`buffer += chunk.toString()`).  External collaborators are
modelled as oracles:
`JSON.parse` is an arbitrary parse function parameter, the upstream HTTP
endpoint / vision solver / page actuation are supplied as environment
functions indexed by call number.
-/

namespace VercelDuck

/-- Stream text: a sequence of characters (the decoded bytes of the body). -/
abbrev Chars := List Char

/-- Result of JS `buffer.split('\n')` followed by `buffer = lines.pop()`:
the complete (newline-terminated) lines, and the trailing partial line. -/
def splitLines : List Char → List (List Char) × List Char
  | [] => ([], [])
  | c :: rest =>
    if c = '\n' then
      ([] :: (splitLines rest).1, (splitLines rest).2)
    else
      match splitLines rest with
      | ([], b) => ([], c :: b)
      | (p :: ps, b) => ((c :: p) :: ps, b)

/-- JS `String.prototype.trim` on a character list (whitespace stripped from
both ends). -/
def trimChars (l : List Char) : List Char :=
  ((l.dropWhile Char.isWhitespace).reverse.dropWhile Char.isWhitespace).reverse

/-- The `"data: "` event marker tested by `line.startsWith('data: ')`. -/
def dataMark : Chars := "data: ".toList

/-- The `"[DONE]"` sentinel. -/
def doneChars : Chars := "[DONE]".toList

/-- The in-band challenge sentinel string `'CAPTCHA_REQUIRED'`. -/
def captchaSentinel : Chars := "CAPTCHA_REQUIRED".toList

/-- The fields of a parsed stream event object that `sendMessage` reads:
`obj.message`, `obj.action`, `obj.type`.  `none` models an absent field. -/
structure StreamEventObj where
  message : Option Chars
  action : Option Chars
  type : Option Chars
deriving DecidableEq

/-- A model of `JSON.parse` restricted to the fields the decoder reads;
`none` models a parse exception.  Supplied as a parameter (it is a JS
runtime builtin, not code of this repository). -/
abbrev JParse := Chars → Option StreamEventObj

/-- Classification of one complete line by the decoder loop body. -/
inductive LineEv where
  | skip
  | token (t : Chars)
  | doneMark
  | challenge
deriving DecidableEq

/-- The `else if (obj.action === 'error' && obj.type === 'ERR_CHALLENGE')`
test reached when `obj.message` is absent or falsy. -/
def challengeCheck (obj : StreamEventObj) : LineEv :=
  if obj.action = some "error".toList ∧ obj.type = some "ERR_CHALLENGE".toList then
    LineEv.challenge
  else
    LineEv.skip

/-- What the decoder loop body does with one complete line
(`sendMessage`, lines 459-477): non-`data: ` lines are ignored, the
payload is `line.slice(6).trim()`, `[DONE]` resolves, a parsed object with
a truthy `message` is a token (JS truthiness: the empty string is falsy),
a challenge-class error object resolves with the sentinel, and everything
else (including parse failures) is skipped. -/
def lineEvent (jp : JParse) (line : Chars) : LineEv :=
  if dataMark.isPrefixOf line then
    let dataLine := trimChars (line.drop 6)
    if dataLine = doneChars then LineEv.doneMark
    else
      match jp dataLine with
      | none => LineEv.skip
      | some obj =>
        match obj.message with
        | some msg => if msg = [] then challengeCheck obj else LineEv.token msg
        | none => challengeCheck obj
  else
    LineEv.skip

/-- The decoder's mutable state: the partial-line `buffer`, the `fullAnswer`
accumulator array, and the promise's resolution (`none` while pending; the
first `resolve` fixes the value, later resolves are no-ops). -/
structure DecodeState where
  buffer : Chars
  fullAnswer : List Chars
  resolved : Option Chars
deriving DecidableEq

/-- The `for (const line of lines)` loop of the `data` handler: a `[DONE]`
or challenge line resolves (a no-op if already resolved) and `return`s out
of the loop; a token line pushes onto `fullAnswer` (also after a resolve —
that can no longer change the promise's value). -/
def processLines (jp : JParse) : DecodeState → List Chars → DecodeState
  | st, [] => st
  | st, line :: rest =>
    match lineEvent jp line with
    | LineEv.skip => processLines jp st rest
    | LineEv.token t =>
        processLines jp { st with fullAnswer := st.fullAnswer ++ [t] } rest
    | LineEv.doneMark =>
        match st.resolved with
        | some _ => st
        | none => { st with resolved := some st.fullAnswer.flatten }
    | LineEv.challenge =>
        match st.resolved with
        | some _ => st
        | none => { st with resolved := some captchaSentinel }

/-- One `data` event: append the chunk to the buffer, split off the complete
lines, keep the partial tail as the new buffer, and run the line loop. -/
def processChunk (jp : JParse) (st : DecodeState) (chunk : Chars) : DecodeState :=
  let r := splitLines (st.buffer ++ chunk)
  processLines jp { st with buffer := r.2 } r.1

/-- The promise's final value: the first `resolve`, or — at the `end` event —
the concatenation of the accumulated `fullAnswer` array. -/
def decodeResult (st : DecodeState) : Chars :=
  st.resolved.getD st.fullAnswer.flatten

/-- The whole stream decode of `sendMessage`: fold the `data` handler over
the arriving chunks from the empty initial state, then the `end` event. -/
def decodeChunks (jp : JParse) (chunks : List Chars) : Chars :=
  decodeResult (chunks.foldl (processChunk jp) ⟨[], [], none⟩)

/-- The complete lines of a stream delivered in full: what the decoder ever
feeds to its line loop (the trailing partial line is never processed). -/
def completeLines (s : Chars) : List Chars := (splitLines s).1

/-- Spec-side description (from the spec's words, for the C1 refinement):
the `message` field of every successfully parsed `data: `-prefixed JSON
event, in arrival order, up to the `[DONE]` sentinel; an absent `message`
field and unparseable lines contribute nothing. -/
def specMessages (jp : JParse) : List Chars → List Chars
  | [] => []
  | line :: rest =>
    if dataMark.isPrefixOf line then
      let d := trimChars (line.drop 6)
      if d = doneChars then []
      else
        match jp d with
        | some obj => (obj.message.getD []) :: specMessages jp rest
        | none => specMessages jp rest
    else
      specMessages jp rest

/-! ### Byte-level delivery

The code's `data` handler receives raw byte chunks and decodes each chunk
separately: `buffer += chunk.toString()` (line 455).  Node's
`Buffer.toString('utf8')` decodes every chunk independently, replacing a
truncated or invalid UTF-8 sequence with U+FFFD — so a multi-byte character
split across a chunk boundary does NOT survive re-chunking.  The decoder
below models that external builtin (bytes as `Nat`; the fine-grained
segmentation of exotic ill-formed sequences — overlongs, surrogates — is
simplified, and no theorem depends on those cases). -/

/-- The U+FFFD replacement character emitted for ill-formed input. -/
def fffd : Char := Char.ofNat 0xFFFD

/-- A decoded code point, guarded to a valid scalar value. -/
def u8Char (n : Nat) : Char :=
  if n < 0x110000 ∧ ¬(0xD800 ≤ n ∧ n ≤ 0xDFFF) then Char.ofNat n else fffd

/-- Decoder state within one chunk: continuation bytes still expected, the
partial code point, and the output so far. -/
structure U8 where
  need : Nat
  acc : Nat
  out : List Char

/-- Handle a byte in start position: ASCII passes through, a lead byte
opens a multi-byte sequence, anything else is replaced. -/
def u8StartByte (b : Nat) (st : U8) : U8 :=
  if b < 0x80 then { need := 0, acc := 0, out := st.out ++ [Char.ofNat b] }
  else if 0xC2 ≤ b ∧ b ≤ 0xDF then { need := 1, acc := b - 0xC0, out := st.out }
  else if 0xE0 ≤ b ∧ b ≤ 0xEF then { need := 2, acc := b - 0xE0, out := st.out }
  else if 0xF0 ≤ b ∧ b ≤ 0xF4 then { need := 3, acc := b - 0xF0, out := st.out }
  else { need := 0, acc := 0, out := st.out ++ [fffd] }

/-- One byte of UTF-8 decoding: a valid continuation extends (or completes)
the open sequence; an invalid one replaces the broken sequence and restarts
on the current byte. -/
def u8Step (st : U8) (b : Nat) : U8 :=
  match st.need with
  | 0 => u8StartByte b st
  | n + 1 =>
    if 0x80 ≤ b ∧ b ≤ 0xBF then
      match n with
      | 0 => { need := 0, acc := 0, out := st.out ++ [u8Char (st.acc * 64 + (b - 0x80))] }
      | m + 1 => { need := m + 1, acc := st.acc * 64 + (b - 0x80), out := st.out }
    else
      u8StartByte b { need := 0, acc := 0, out := st.out ++ [fffd] }

/-- `Buffer.toString('utf8')` on one chunk: decode the bytes, replacing a
sequence left open at the end of the chunk. -/
def utf8Decode (bytes : List Nat) : List Char :=
  let st := bytes.foldl u8Step ⟨0, 0, []⟩
  if st.need = 0 then st.out else st.out ++ [fffd]

/-- One `data` event at byte level: `buffer += chunk.toString()`, then the
line loop — each chunk is decoded separately. -/
def processByteChunk (jp : JParse) (st : DecodeState) (chunk : List Nat) : DecodeState :=
  processChunk jp st (utf8Decode chunk)

/-- The whole decode of `sendMessage` on an upstream BYTE stream delivered
as the given chunks. -/
def decodeByteChunks (jp : JParse) (chunks : List (List Nat)) : Chars :=
  decodeResult (chunks.foldl (processByteChunk jp) ⟨[], [], none⟩)

/-- Delivery of a byte stream in single-byte chunks. -/
def oneByteChunks (bs : List Nat) : List (List Nat) := bs.map (fun b => [b])

/-! ## Configuration constants (`src/api/ask.js`, lines 13-38) -/

def MAX_CAPTCHA_ATTEMPTS : Nat := 2

def AVAILABLE_MODELS : List String :=
  ["claude-3-5-haiku-latest",
   "mistralai/Mistral-Small-24B-Instruct-2501",
   "meta-llama/Llama-4-Scout-17B-16E-Instruct",
   "gpt-4o-mini",
   "gpt-5-mini"]

def DEFAULT_MODEL : String := "gpt-5-mini"

def GRID_START_X : Nat := 780
def GRID_START_Y : Nat := 380
def GRID_STEP_X : Nat := 114
def GRID_STEP_Y : Nat := 114
def GRID_CENTER_OFFSET : Nat := 57
def SUBMIT_X : Nat := 960
def SUBMIT_Y : Nat := 735
def CLICK_DELAY : Nat := 250
def SUBMIT_DELAY : Nat := 1500

/-! ## Header filtering (`getFilteredHeaders`, lines 400-414)

A captured header map is modelled as a list of key/value pairs of
characters (JS object entries in insertion order); `none` models a
null/absent capture. -/

/-- The fixed allow-list of forwardable header names. -/
def allowedHeaders : List Chars :=
  ["accept".toList, "content-type".toList, "origin".toList, "referer".toList,
   "user-agent".toList, "x-fe-signals".toList, "x-fe-version".toList,
   "x-vqd-hash-1".toList, "sec-ch-ua".toList, "sec-ch-ua-mobile".toList,
   "sec-ch-ua-platform".toList]

/-- `key.toLowerCase()` (header names are ASCII). -/
def lowerKey (k : Chars) : Chars := k.map Char.toLower

/-- `getFilteredHeaders`: `{}` for a null capture, otherwise the entries
whose lower-cased key is in the allow-list, values untouched. -/
def getFilteredHeaders (headers : Option (List (Chars × Chars))) : List (Chars × Chars) :=
  match headers with
  | none => []
  | some hs => hs.filter (fun kv => allowedHeaders.contains (lowerKey kv.1))

/-! ## Challenge solver (`solveCaptchaWithGemini`, lines 126-197)

The vision model's reply is modelled at the level of the JSON value that
`JSON.parse` produced from the fence-stripped text (`none` = the parse
threw), plus a separate oracle for the regex-extraction fallback branch.
Numeric JSON values are modelled as integers (the grid domain). -/

/-- A JSON value as far as the solver's defensive parsing inspects it. -/
inductive JsonV where
  | null
  | bool (b : Bool)
  | num (n : Int)
  | str (s : Chars)
  | arr (items : List JsonV)
  | obj (fields : List (Chars × JsonV))

/-- JS truthiness of a parsed JSON value (`NaN` is not representable here). -/
def truthy : JsonV → Bool
  | JsonV.null => false
  | JsonV.bool b => b
  | JsonV.num n => n ≠ 0
  | JsonV.str s => s ≠ []
  | JsonV.arr _ => true
  | JsonV.obj _ => true

/-- Property lookup on an object's fields (JS object keys are unique). -/
def objLookup (fs : List (Chars × JsonV)) (k : Chars) : Option JsonV :=
  (fs.find? (fun p => p.1 = k)).map Prod.snd

/-- `else if (parsed.f)`: the field, if present and truthy. -/
def truthyField (fs : List (Chars × JsonV)) (k : Chars) : Option JsonV :=
  match objLookup fs k with
  | some v => if truthy v then some v else none
  | none => none

/-- `Array.isArray(value) && value.length === 3`. -/
def isArr3 : JsonV → Bool
  | JsonV.arr l => l.length = 3
  | _ => false

/-- Outcome of the inner `try` around `JSON.parse` and matrix selection. -/
inductive ParseTry where
  | ok (cand : Option JsonV)
  | exn

/-- Matrix selection (lines 159-178): a top-level array is the matrix;
on an object, the first truthy of `.matrix`/`.answer`/`.response`, else the
first array-valued field of length 3; property access on `null` throws
(driving the regex fallback); other primitives yield no candidate
(`Object.values` of a number/boolean/string holds no arrays). -/
def selectMatrix : Option JsonV → ParseTry
  | none => ParseTry.exn
  | some JsonV.null => ParseTry.exn
  | some (JsonV.arr l) => ParseTry.ok (some (JsonV.arr l))
  | some (JsonV.obj fs) =>
    ParseTry.ok
      (match truthyField fs "matrix".toList with
       | some v => some v
       | none =>
         match truthyField fs "answer".toList with
         | some v => some v
         | none =>
           match truthyField fs "response".toList with
           | some v => some v
           | none => (fs.map Prod.snd).find? isArr3)
  | some _ => ParseTry.ok none

/-- `parseInt(cell)`: numbers pass through, strings parse an optional sign
and leading decimal digits, anything else is `NaN` (modelled `none`). -/
def jsParseInt : JsonV → Option Int
  | JsonV.num n => some n
  | JsonV.str s => parseIntChars (s.dropWhile Char.isWhitespace)
  | _ => none
where
  digitsVal : List Char → Option Nat
    | [] => none
    | l =>
      let ds := l.takeWhile Char.isDigit
      if ds = [] then none
      else some (ds.foldl (fun a c => a * 10 + (c.toNat - 48)) 0)
  parseIntChars : List Char → Option Int
    | [] => none
    | '-' :: rest => (digitsVal rest).map (fun n => -(n : Int))
    | '+' :: rest => (digitsVal rest).map (fun n => (n : Int))
    | l => (digitsVal l).map (fun n => (n : Int))

/-- The solver's returned grid: rows of `parseInt`-coerced cells. -/
abbrev Grid := List (List (Option Int))

/-- `matrix.map(row => row.map(cell => parseInt(cell)))`: a non-array row
throws (caught by the outer `try`, yielding `null`). -/
def coerceRows : List JsonV → Option Grid
  | [] => some []
  | JsonV.arr r :: rest => (coerceRows rest).map (fun g => r.map jsParseInt :: g)
  | _ => none

/-- Validation and coercion (lines 187-190):
`if (matrix && Array.isArray(matrix) && matrix.length === 3)` — three ROWS
only — then the per-cell `parseInt` map; anything else yields `null`. -/
def validateMatrix : Option JsonV → Option Grid
  | some (JsonV.arr rows) => if rows.length = 3 then coerceRows rows else none
  | _ => none

/-- Reply processing after a 200 response with candidates: select a matrix
candidate (regex fallback on a parse exception), then validate. -/
def solveCaptchaFromReply (parsed regexFb : Option JsonV) : Option Grid :=
  validateMatrix
    (match selectMatrix parsed with
     | ParseTry.ok c => c
     | ParseTry.exn => regexFb)

/-- `solveCaptchaWithGemini`: `null` unless the vision endpoint answered 200
with a nonempty candidate list; then the reply-processing pipeline. -/
def solveCaptchaWithGemini (status : Nat) (hasCandidates : Bool)
    (parsed regexFb : Option JsonV) : Option Grid :=
  if status = 200 then
    if hasCandidates then solveCaptchaFromReply parsed regexFb else none
  else none

/-! ## Challenge actuator (`clickCaptcha`, lines 202-225)

The playwright page is modelled as a fault oracle deciding, per issued
action, whether it succeeds or throws; the function's observable behaviour
is the list of actions actually performed plus the returned boolean. -/

/-- One simulated page action: a pointer click or a settle wait. -/
inductive UIEvent where
  | click (x y : Nat)
  | wait (ms : Nat)
deriving DecidableEq

/-- x-coordinate of the cell in column `j`. -/
def cellX (j : Nat) : Nat := GRID_START_X + j * GRID_STEP_X + GRID_CENTER_OFFSET

/-- y-coordinate of the cell in row `i`. -/
def cellY (i : Nat) : Nat := GRID_START_Y + i * GRID_STEP_Y + GRID_CENTER_OFFSET

/-- The inner `for (let j ...)` loop over one row `i`: a click plus settle
delay for every cell that is `=== 1`. -/
def rowClicks (i : Nat) : Nat → List (Option Int) → List UIEvent
  | _, [] => []
  | j, c :: rest =>
    (if c = some 1 then [UIEvent.click (cellX j) (cellY i), UIEvent.wait CLICK_DELAY]
     else []) ++ rowClicks i (j + 1) rest

/-- The outer `for (let i ...)` loop over the rows. -/
def gridClicks : Nat → Grid → List UIEvent
  | _, [] => []
  | i, row :: rest => rowClicks i 0 row ++ gridClicks (i + 1) rest

/-- The full intended action sequence of `clickCaptcha`: the grid clicks,
then the submit click at `(SUBMIT_X, SUBMIT_Y + 50)` and the long delay. -/
def captchaClickEvents (m : Grid) : List UIEvent :=
  gridClicks 0 m ++ [UIEvent.click SUBMIT_X (SUBMIT_Y + 50), UIEvent.wait SUBMIT_DELAY]

/-- Run an action sequence against the fault oracle `ok` (indexed by action
number): stop at the first throwing action.  Returns the performed actions
and the try/catch result (`true` = reached the end, `false` = caught). -/
def runEvents (ok : Nat → Bool) : Nat → List UIEvent → List UIEvent × Bool
  | _, [] => ([], true)
  | n, e :: rest =>
    if ok n then
      let r := runEvents ok (n + 1) rest
      (e :: r.1, r.2)
    else ([], false)

/-- `clickCaptcha` under fault oracle `ok` on solution grid `m`. -/
def clickCaptcha (ok : Nat → Bool) (m : Grid) : List UIEvent × Bool :=
  runEvents ok 0 (captchaClickEvents m)

/-- Spec-side description (from the spec's words, for the C9 refinement):
for every cell marked 1 in row-major order, a click at
`(GRID_START_X + column*GRID_STEP_X + GRID_CENTER_OFFSET,
GRID_START_Y + row*GRID_STEP_Y + GRID_CENTER_OFFSET)` followed by the fixed
settle delay, then one final click at the fixed submit coordinate followed
by the longer settle delay. -/
def specActuationEvents (m : Grid) : List UIEvent :=
  (m.enum.flatMap fun ir =>
    ir.2.enum.flatMap fun jc =>
      if jc.2 = some 1 then
        [UIEvent.click (GRID_START_X + jc.1 * GRID_STEP_X + GRID_CENTER_OFFSET)
                       (GRID_START_Y + ir.1 * GRID_STEP_Y + GRID_CENTER_OFFSET),
         UIEvent.wait CLICK_DELAY]
      else [])
  ++ [UIEvent.click SUBMIT_X (SUBMIT_Y + 50), UIEvent.wait SUBMIT_DELAY]

/-! ## Sending (`sendMessage`, lines 419-489)

The upstream chat endpoint is modelled as the response the `axios.post`
call produced: a status code and (for 200) the stream's chunks.
Network-level stream `error` events are outside this embedding. -/

/-- One upstream chat response. -/
structure UpstreamResponse where
  status : Nat
  body : List Chars

/-- `sendMessage`'s observable outcome: `418` returns the sentinel at once,
any other non-200 status throws, a 200 response resolves with the decoded
stream (which is the sentinel again if an `ERR_CHALLENGE` event arrived). -/
def sendMessageE (jp : JParse) (resp : UpstreamResponse) : Except String Chars :=
  if resp.status = 418 then Except.ok captchaSentinel
  else if resp.status ≠ 200 then
    Except.error ("Request failed: HTTP " ++ toString resp.status)
  else Except.ok (decodeChunks jp resp.body)

/-! ## Handler orchestration (`handler`, lines 494-592)

Browser/page acquisition and header refreshing are external collaborators
modelled as succeeding; the environment supplies, by call index, each
upstream response, each solver result, and each actuation result. -/

/-- One element of the inbound `messages` array. -/
structure ChatMessage where
  role : String
  content : String
deriving DecidableEq

/-- The `messages` field of the request body:
absent/falsy, present but not an array, or a proper array. -/
inductive BodyMessages where
  | missing
  | notArray
  | arr (msgs : List ChatMessage)
deriving DecidableEq

/-- An inbound HTTP request as the handler inspects it. -/
structure HandlerReq where
  method : String
  messages : BodyMessages
  model : Option String
deriving DecidableEq

/-- The terminal responses the handler can produce. -/
inductive HandlerResult where
  | success (answer : Chars) (model : String)
  | invalidMessages
  | captchaFailed
  | serverErr (details : String)
  | methodNotAllowed
  | optionsOk
deriving DecidableEq

/-- The external collaborators, indexed by call number: `resp i` is the
upstream response to the `i`-th `sendMessage`, `solve k` the `k`-th solver
result, `act k` the `k`-th `clickCaptcha` result. -/
structure Env where
  resp : Nat → UpstreamResponse
  solve : Nat → Option Grid
  act : Nat → Bool

/-- `model` selection (line 513 + 519): destructuring default for an absent
field, then the allow-set check with fallback to the default. -/
def modelChoice (m : Option String) : String :=
  let mm := m.getD DEFAULT_MODEL
  if AVAILABLE_MODELS.contains mm then mm else DEFAULT_MODEL

/-- The `while (answer === 'CAPTCHA_REQUIRED' && captchaAttempts < MAX)`
loop (lines 533-554), with `fuel = MAX - captchaAttempts`.  Returns the
final `answer`, the number of `sendMessage` calls made inside the loop, and
the number of loop iterations entered (the `captchaAttempts` increments).
A missing grid or failed actuation throws `Failed to solve captcha`, and
any caught error `break`s with `answer` unchanged. -/
def captchaLoop (env : Env) (jp : JParse) :
    Nat → Chars → Nat → Nat → Chars × Nat × Nat
  | 0, answer, _, _ => (answer, 0, 0)
  | fuel + 1, answer, si, di =>
    if answer = captchaSentinel then
      match env.solve si with
      | some _ =>
        if env.act si then
          match sendMessageE jp (env.resp di) with
          | Except.ok a =>
            let r := captchaLoop env jp fuel a (si + 1) (di + 1)
            (r.1, r.2.1 + 1, r.2.2 + 1)
          | Except.error _ => (answer, 1, 1)
        else (answer, 0, 1)
      | none => (answer, 0, 1)
    else (answer, 0, 0)

/-- The handler: method guards, `messages` validation, model selection,
first send, the captcha loop, and the final response.  Returns the terminal
result, the total number of `sendMessage` invocations, and the final
`captchaAttempts` counter. -/
def handlerRun (env : Env) (jp : JParse) (req : HandlerReq) :
    HandlerResult × Nat × Nat :=
  if req.method = "OPTIONS" then (HandlerResult.optionsOk, 0, 0)
  else if req.method ≠ "POST" then (HandlerResult.methodNotAllowed, 0, 0)
  else
    match req.messages with
    | BodyMessages.arr _ =>
      let actualModel := modelChoice req.model
      match sendMessageE jp (env.resp 0) with
      | Except.error e => (HandlerResult.serverErr e, 1, 0)
      | Except.ok a0 =>
        let r := captchaLoop env jp MAX_CAPTCHA_ATTEMPTS a0 0 1
        if r.1 = captchaSentinel then (HandlerResult.captchaFailed, r.2.1 + 1, r.2.2)
        else (HandlerResult.success r.1 actualModel, r.2.1 + 1, r.2.2)
    | _ => (HandlerResult.invalidMessages, 0, 0)

/-! ## Concrete fixtures used by witnesses -/

/-- Validity predicate used to discuss C6: a 3×3 grid over `{0,1}`. -/
def isGrid3x3 (g : Grid) : Prop :=
  g.length = 3 ∧ ∀ row ∈ g, row.length = 3 ∧ ∀ c ∈ row, c = some 0 ∨ c = some 1

instance isGrid3x3Decidable (g : Grid) : Decidable (isGrid3x3 g) := by
  unfold isGrid3x3
  infer_instance

/-- A concrete parse oracle for witnesses: four recognizable payloads. -/
def jpDemo : JParse := fun d =>
  if d = "ma".toList then some ⟨some "Hel".toList, none, none⟩
  else if d = "mb".toList then some ⟨some "lo".toList, none, none⟩
  else if d = "mc".toList then some ⟨none, some "error".toList, some "ERR_CHALLENGE".toList⟩
  else if d = "mcr".toList then some ⟨some captchaSentinel, none, none⟩
  else none

/-- A clean demo stream: two tokens then the `[DONE]` sentinel. -/
def streamDemo : Chars := "data: ma\ndata: mb\ndata: [DONE]\n".toList

/-- Demo environment for C3: first send answered 418, retry answered 200
with a clean stream, solver and actuation succeeding. -/
def envC3 : Env :=
  ⟨fun i => if i = 0 then ⟨418, []⟩ else ⟨200, [streamDemo]⟩,
   fun _ => some [[some 1]], fun _ => true⟩

/-- Demo environment for C7: challenge on every send, solver finds nothing. -/
def envC7 : Env := ⟨fun _ => ⟨418, []⟩, fun _ => none, fun _ => true⟩

/-- Demo environment for C8: a clean empty 200 stream on the first send. -/
def envC8 : Env := ⟨fun _ => ⟨200, []⟩, fun _ => none, fun _ => false⟩

/-- Demo environment for C10: a 200 stream whose decoded answer text is
exactly the challenge sentinel, and a solver that finds nothing. -/
def envC10 : Env :=
  ⟨fun _ => ⟨200, ["data: mcr\n".toList]⟩, fun _ => none, fun _ => false⟩

/-- The valid center-marked 3×3 grid of the C6 example. -/
def gridCenter : Grid :=
  [[some 0, some 0, some 0], [some 0, some 1, some 0], [some 0, some 0, some 0]]

/-! ## Lemmas about line splitting -/

/-- `splitLines` distributes over appending further input: the complete
lines of `x ++ y` are those of `x` followed by those of the held-back
partial line of `x` glued to `y`. -/
theorem splitLines_append (x y : List Char) :
    splitLines (x ++ y)
      = ((splitLines x).1 ++ (splitLines ((splitLines x).2 ++ y)).1,
         (splitLines ((splitLines x).2 ++ y)).2) := by
  induction x with
  | nil => simp [splitLines]
  | cons c x ih =>
    by_cases hc : c = '\n'
    · simp [List.cons_append, splitLines, hc, ih, List.append_eq]
    · rcases hx : splitLines x with ⟨ls, b⟩
      rcases ls with _ | ⟨q, qs⟩
      · rcases hT : splitLines (b ++ y) with ⟨t1, t2⟩
        rcases t1 with _ | ⟨p, ps⟩ <;>
          simp [List.cons_append, splitLines, hc, ih, hx, hT, List.append_eq]
      · simp [List.cons_append, splitLines, hc, ih, hx, List.append_eq]

/-- A chunk holding no newline produces no complete line. -/
theorem splitLines_noNL : ∀ l : List Char, '\n' ∉ l → splitLines l = ([], l) := by
  intro l hl
  induction l with
  | nil => rfl
  | cons c rest ih =>
    have hc : c ≠ '\n' := fun h => hl (h ▸ List.mem_cons_self c rest)
    have hrest : '\n' ∉ rest := fun h => hl (List.mem_cons_of_mem c h)
    simp [splitLines, hc, ih hrest]

/-- The held-back partial line never contains a newline. -/
theorem splitLines_snd_noNL : ∀ l : List Char, '\n' ∉ (splitLines l).2 := by
  intro l
  induction l with
  | nil => simp [splitLines]
  | cons c rest ih =>
    by_cases hc : c = '\n'
    · simpa [splitLines, hc] using ih
    · rcases hx : splitLines rest with ⟨ls, b⟩
      rw [hx] at ih
      rcases ls with _ | ⟨q, qs⟩
      · simp only [splitLines, if_neg hc, hx]
        intro h
        rcases List.mem_cons.mp h with h | h
        · exact hc h.symm
        · exact ih h
      · simpa [splitLines, hc, hx] using ih

/-! ## Result-equivalence of decoder states

After the first `resolve` the promise's value is fixed; later pushes onto
`fullAnswer` cannot change the outcome.  Two states are result-equivalent
when they share the buffer and the resolution, and — while unresolved —
the accumulator. -/

def stEquiv (s t : DecodeState) : Prop :=
  s.buffer = t.buffer ∧ s.resolved = t.resolved ∧
    (s.resolved = none → s.fullAnswer = t.fullAnswer)

theorem stEquiv_refl (s : DecodeState) : stEquiv s s := ⟨rfl, rfl, fun _ => rfl⟩

theorem stEquiv_symm {s t : DecodeState} (h : stEquiv s t) : stEquiv t s :=
  ⟨h.1.symm, h.2.1.symm, fun hn => (h.2.2 (h.2.1.trans hn)).symm⟩

theorem stEquiv_trans {s t u : DecodeState} (h1 : stEquiv s t) (h2 : stEquiv t u) :
    stEquiv s u :=
  ⟨h1.1.trans h2.1, h1.2.1.trans h2.2.1,
   fun hn => (h1.2.2 hn).trans (h2.2.2 (h1.2.1.symm.trans hn))⟩

theorem stEquiv_none_eq {s t : DecodeState} (h : stEquiv s t)
    (hn : s.resolved = none) : s = t := by
  have h4 := h.2.2 hn
  obtain ⟨h1, h2, _⟩ := h
  cases s; cases t
  simp only at h1 h2 h4
  simp [h1, h2, h4]

theorem decodeResult_congr {s t : DecodeState} (h : stEquiv s t) :
    decodeResult s = decodeResult t := by
  obtain ⟨h1, h2, h3⟩ := h
  cases hs : s.resolved with
  | some r =>
    have ht : t.resolved = some r := h2.symm.trans hs
    simp [decodeResult, hs, ht]
  | none =>
    have ht : t.resolved = none := h2.symm.trans hs
    simp [decodeResult, hs, ht, h3 hs]

/-- The line loop never touches the buffer. -/
theorem processLines_buffer (jp : JParse) :
    ∀ L st, (processLines jp st L).buffer = st.buffer := by
  intro L
  induction L with
  | nil => intro st; rfl
  | cons line rest ih =>
    intro st
    simp only [processLines]
    cases lineEvent jp line with
    | skip => exact ih st
    | token t => exact ih _
    | doneMark => cases hr : st.resolved <;> rfl
    | challenge => cases hr : st.resolved <;> rfl

/-- Once resolved, the resolution survives the line loop unchanged. -/
theorem processLines_resolved (jp : JParse) (r : Chars) :
    ∀ L st, st.resolved = some r → (processLines jp st L).resolved = some r := by
  intro L
  induction L with
  | nil => intro st h; exact h
  | cons line rest ih =>
    intro st h
    simp only [processLines]
    cases lineEvent jp line with
    | skip => exact ih st h
    | token t => exact ih _ h
    | doneMark => simp [h]
    | challenge => simp [h]

/-- The line loop reads neither the buffer: running it with a different
buffer just carries that buffer along. -/
theorem processLines_bufferSet (jp : JParse) (b : Chars) :
    ∀ L st, processLines jp { st with buffer := b } L
      = { processLines jp st L with buffer := b } := by
  intro L
  induction L with
  | nil => intro st; rfl
  | cons line rest ih =>
    intro st
    simp only [processLines]
    cases lineEvent jp line with
    | skip => exact ih st
    | token t => exact ih { st with fullAnswer := st.fullAnswer ++ [t] }
    | doneMark => cases hr : st.resolved <;> simp [hr]
    | challenge => cases hr : st.resolved <;> simp [hr]

/-- A resolved state is result-equivalent to any further line processing
from it. -/
theorem stEquiv_resolved_processLines (jp : JParse) {st : DecodeState} {r : Chars}
    (hr : st.resolved = some r) (L : List Chars) :
    stEquiv st (processLines jp st L) :=
  ⟨(processLines_buffer jp L st).symm,
   hr.trans (processLines_resolved jp r L st hr).symm,
   fun hn => absurd hr (by rw [hn]; exact fun h => Option.noConfusion h)⟩

/-- Splitting the line list splits the loop, up to result-equivalence
(the early `return` after a resolve only affects post-resolve pushes). -/
theorem processLines_append (jp : JParse) :
    ∀ L1 L2 st, stEquiv (processLines jp st (L1 ++ L2))
      (processLines jp (processLines jp st L1) L2) := by
  intro L1
  induction L1 with
  | nil => intro L2 st; exact stEquiv_refl _
  | cons line L1 ih =>
    intro L2 st
    simp only [List.cons_append, processLines]
    cases lineEvent jp line with
    | skip => exact ih L2 st
    | token t => exact ih L2 _
    | doneMark =>
      cases hr : st.resolved with
      | some r => exact stEquiv_resolved_processLines jp hr L2
      | none => exact stEquiv_resolved_processLines jp rfl L2
    | challenge =>
      cases hr : st.resolved with
      | some r => exact stEquiv_resolved_processLines jp hr L2
      | none => exact stEquiv_resolved_processLines jp rfl L2

/-- The line loop respects result-equivalence. -/
theorem processLines_congr (jp : JParse) {s t : DecodeState} (h : stEquiv s t)
    (L : List Chars) : stEquiv (processLines jp s L) (processLines jp t L) := by
  cases hs : s.resolved with
  | none => rw [stEquiv_none_eq h hs]; exact stEquiv_refl _
  | some r =>
    have ht : t.resolved = some r := h.2.1.symm.trans hs
    exact ⟨by rw [processLines_buffer, processLines_buffer, h.1],
      by rw [processLines_resolved jp r L s hs, processLines_resolved jp r L t ht],
      fun hn => absurd (processLines_resolved jp r L s hs)
        (by rw [hn]; exact fun hh => Option.noConfusion hh)⟩

/-- The chunk handler leaves exactly the held-back partial line in the
buffer. -/
theorem processChunk_buffer (jp : JParse) (st : DecodeState) (c : Chars) :
    (processChunk jp st c).buffer = (splitLines (st.buffer ++ c)).2 := by
  simp [processChunk, processLines_buffer]

/-- The chunk handler respects result-equivalence. -/
theorem processChunk_congr (jp : JParse) {s t : DecodeState} (h : stEquiv s t)
    (c : Chars) : stEquiv (processChunk jp s c) (processChunk jp t c) := by
  cases hs : s.resolved with
  | none => rw [stEquiv_none_eq h hs]; exact stEquiv_refl _
  | some r =>
    have hb : s.buffer = t.buffer := h.1
    show stEquiv
      (processLines jp { s with buffer := (splitLines (s.buffer ++ c)).2 }
        (splitLines (s.buffer ++ c)).1)
      (processLines jp { t with buffer := (splitLines (t.buffer ++ c)).2 }
        (splitLines (t.buffer ++ c)).1)
    rw [hb]
    refine processLines_congr jp ?_ _
    exact ⟨rfl, h.2.1, fun hn => absurd (hs.symm.trans hn) (by simp)⟩

/-- Processing two chunks is result-equivalent to processing their
concatenation. -/
theorem processChunk_append (jp : JParse) (st : DecodeState) (c d : Chars) :
    stEquiv (processChunk jp (processChunk jp st c) d)
      (processChunk jp st (c ++ d)) := by
  rcases hA : splitLines (st.buffer ++ c) with ⟨A1, A2⟩
  rcases hB : splitLines (A2 ++ d) with ⟨B1, B2⟩
  have hsplit : splitLines (st.buffer ++ (c ++ d)) = (A1 ++ B1, B2) := by
    rw [← List.append_assoc, splitLines_append, hA, hB]
  have hc1 : processChunk jp st c = processLines jp { st with buffer := A2 } A1 := by
    show processLines jp { st with buffer := (splitLines (st.buffer ++ c)).2 }
        (splitLines (st.buffer ++ c)).1 = _
    rw [hA]
  have hbuf : (processChunk jp st c).buffer = A2 := by
    rw [processChunk_buffer, hA]
  have hc2 : processChunk jp (processChunk jp st c) d
      = processLines jp { processChunk jp st c with buffer := B2 } B1 := by
    show processLines jp
        { processChunk jp st c with buffer := (splitLines ((processChunk jp st c).buffer ++ d)).2 }
        (splitLines ((processChunk jp st c).buffer ++ d)).1 = _
    rw [hbuf, hB]
  have hRHS : processChunk jp st (c ++ d)
      = processLines jp { st with buffer := B2 } (A1 ++ B1) := by
    show processLines jp { st with buffer := (splitLines (st.buffer ++ (c ++ d))).2 }
        (splitLines (st.buffer ++ (c ++ d))).1 = _
    rw [hsplit]
  rw [hc2, hRHS, hc1]
  apply stEquiv_symm
  refine stEquiv_trans (processLines_append jp A1 B1 _) ?_
  have hswap : processLines jp { st with buffer := B2 } A1
      = { processLines jp { st with buffer := A2 } A1 with buffer := B2 } := by
    have e1 : ({ st with buffer := B2 } : DecodeState)
        = { ({ st with buffer := A2 } : DecodeState) with buffer := B2 } := rfl
    rw [e1, processLines_bufferSet]
  rw [hswap]
  exact stEquiv_refl _

/-- Folding the chunk handler over a chunk list is result-equivalent to a
single delivery of the whole text, for any start state whose buffer holds
no newline. -/
theorem foldl_processChunk (jp : JParse) :
    ∀ (chunks : List Chars) (st : DecodeState), '\n' ∉ st.buffer →
      stEquiv (chunks.foldl (processChunk jp) st) (processChunk jp st chunks.flatten) := by
  intro chunks
  induction chunks with
  | nil =>
    intro st hb
    have : processChunk jp st [] = st := by
      cases st with
      | mk b fa res =>
        simp only at hb
        simp [processChunk, splitLines_noNL b hb, processLines]
    rw [List.flatten_nil, this]
    exact stEquiv_refl _
  | cons c cs ih =>
    intro st hb
    rw [List.foldl_cons, List.flatten_cons]
    refine stEquiv_trans (ih (processChunk jp st c) ?_) (processChunk_append jp st c cs.flatten)
    rw [processChunk_buffer]
    exact splitLines_snd_noNL _

/-- Chunk-boundary invariance of the decode result: any chunking of the
stream decodes as its one-shot delivery. -/
theorem decodeChunks_flatten (jp : JParse) (chunks : List Chars) :
    decodeChunks jp chunks = decodeChunks jp [chunks.flatten] := by
  unfold decodeChunks
  apply decodeResult_congr
  have h2 : [chunks.flatten].foldl (processChunk jp) (⟨[], [], none⟩ : DecodeState)
      = processChunk jp ⟨[], [], none⟩ chunks.flatten := rfl
  rw [h2]
  exact foldl_processChunk jp chunks ⟨[], [], none⟩ (by simp)

/-- A challenge-free `challengeCheck` outcome is a skip. -/
theorem challengeCheck_skip {obj : StreamEventObj}
    (h : challengeCheck obj ≠ LineEv.challenge) : challengeCheck obj = LineEv.skip := by
  by_cases hc : obj.action = some "error".toList ∧ obj.type = some "ERR_CHALLENGE".toList
  · exact absurd (by simp [challengeCheck, hc]) h
  · simp only [challengeCheck]
    exact if_neg hc

/-- On a challenge-free line list, the loop's result is the accumulator so
far followed by the spec-side message concatenation. -/
theorem processLines_specAnswer (jp : JParse) :
    ∀ (L : List Chars) (ans : List Chars) (b : Chars),
      (∀ l ∈ L, lineEvent jp l ≠ LineEv.challenge) →
      decodeResult (processLines jp ⟨b, ans, none⟩ L)
        = ans.flatten ++ (specMessages jp L).flatten := by
  intro L
  induction L with
  | nil => intro ans b _; simp [processLines, decodeResult, specMessages]
  | cons line rest ih =>
    intro ans b h
    have hline := h line (List.mem_cons_self line rest)
    have hrest : ∀ l ∈ rest, lineEvent jp l ≠ LineEv.challenge :=
      fun l hl => h l (List.mem_cons_of_mem line hl)
    by_cases hd : dataMark.isPrefixOf line
    · by_cases hdone : trimChars (line.drop 6) = doneChars
      · have he : lineEvent jp line = LineEv.doneMark := by
          simp [lineEvent, hd, hdone]
        simp [processLines, he, decodeResult, specMessages, hd, hdone]
      · cases hp : jp (trimChars (line.drop 6)) with
        | none =>
          have he : lineEvent jp line = LineEv.skip := by
            simp [lineEvent, hd, hdone, hp]
          simp only [processLines, he]
          rw [ih ans b hrest]
          simp [specMessages, hd, hdone, hp]
        | some obj =>
          cases hm : obj.message with
          | none =>
            have hcc : challengeCheck obj = LineEv.skip := by
              apply challengeCheck_skip
              intro hcc
              exact hline (by simp [lineEvent, hd, hdone, hp, hm, hcc])
            have he : lineEvent jp line = LineEv.skip := by
              simp [lineEvent, hd, hdone, hp, hm, hcc]
            simp only [processLines, he]
            rw [ih ans b hrest]
            simp [specMessages, hd, hdone, hp, hm]
          | some msg =>
            by_cases hmsg : msg = []
            · have hcc : challengeCheck obj = LineEv.skip := by
                apply challengeCheck_skip
                intro hcc
                exact hline (by simp [lineEvent, hd, hdone, hp, hm, hmsg, hcc])
              have he : lineEvent jp line = LineEv.skip := by
                simp [lineEvent, hd, hdone, hp, hm, hmsg, hcc]
              simp only [processLines, he]
              rw [ih ans b hrest]
              simp [specMessages, hd, hdone, hp, hm, hmsg]
            · have he : lineEvent jp line = LineEv.token msg := by
                simp [lineEvent, hd, hdone, hp, hm, hmsg]
              simp only [processLines, he]
              show decodeResult (processLines jp ⟨b, ans ++ [msg], none⟩ rest)
                  = ans.flatten ++ (specMessages jp (line :: rest)).flatten
              rw [ih (ans ++ [msg]) b hrest]
              simp [specMessages, hd, hdone, hp, hm, List.flatten_append,
                List.append_assoc]
    · have he : lineEvent jp line = LineEv.skip := by simp [lineEvent, hd]
      simp only [processLines, he]
      rw [ih ans b hrest]
      simp [specMessages, hd]

/-- C1: for every chat request whose send encounters no challenge, the
answer returned by the stream decoder equals the concatenation, in arrival
order, of the `message` field of every successfully parsed `data: `-prefixed
JSON event decoded from the stream up to the `[DONE]` sentinel or natural
stream end; unparseable lines contribute nothing. -/
theorem C1_stream_concat (jp : JParse) (chunks : List Chars)
    (hnc : ∀ l ∈ completeLines chunks.flatten, lineEvent jp l ≠ LineEv.challenge) :
    decodeChunks jp chunks = (specMessages jp (completeLines chunks.flatten)).flatten := by
  rw [decodeChunks_flatten]
  have h1 : decodeChunks jp [chunks.flatten]
      = decodeResult (processLines jp ⟨(splitLines chunks.flatten).2, [], none⟩
          (completeLines chunks.flatten)) := rfl
  rw [h1, processLines_specAnswer jp _ [] _ hnc]
  simp [completeLines]

/-- Witness for C1 at a concrete parse oracle and chunking. -/
theorem C1_stream_concat_witness :
    (∀ l ∈ completeLines (["data: ma\n".toList, "data: mb\ndata: [DONE]\n".toList]).flatten,
        lineEvent jpDemo l ≠ LineEv.challenge)
    ∧ decodeChunks jpDemo ["data: ma\n".toList, "data: mb\ndata: [DONE]\n".toList]
        = (specMessages jpDemo
            (completeLines (["data: ma\n".toList, "data: mb\ndata: [DONE]\n".toList]).flatten)).flatten :=
  ⟨by decide, C1_stream_concat jpDemo _ (by decide)⟩

/-! ### C5: chunk boundaries at byte level

Fixtures: a stream whose single `data: ` event carries the JSON text
`\x7b"message":"é"\x7d`, with `é` encoded as the two bytes `0xC3 0xA9`. -/

/-- `é` (U+00E9). -/
def eAcute : Char := Char.ofNat 0xE9

def lbrace : Char := Char.ofNat 0x7B

def rbrace : Char := Char.ofNat 0x7D

/-- The JSON event text carrying `content` as its `message` string. -/
def jsonMsgPayload (content : Chars) : Chars :=
  [lbrace] ++ "\"message\":\"".toList ++ content ++ "\"".toList ++ [rbrace]

/-- `JSON.parse` on exactly the two payloads that arise — intact and
byte-mangled — mirroring what the real parser returns for each. -/
def jpByte : JParse := fun d =>
  if d = jsonMsgPayload [eAcute] then some ⟨some [eAcute], none, none⟩
  else if d = jsonMsgPayload [fffd, fffd] then some ⟨some [fffd, fffd], none, none⟩
  else none

/-- The upstream byte stream: `data: ` + the payload with `é` as
`0xC3 0xA9` + a newline. -/
def c5Bytes : List Nat :=
  (("data: ".toList ++ [lbrace] ++ "\"message\":\"".toList).map Char.toNat)
    ++ [0xC3, 0xA9]
    ++ (("\"".toList ++ [rbrace] ++ "\n".toList).map Char.toNat)

/-- An all-ASCII demo byte stream for the amended C5's witness. -/
def asciiDemo : List Nat := "data: ma\n".toList.map Char.toNat

/-- Byte chunks fold exactly like their per-chunk decodes. -/
theorem decodeByteChunks_map (jp : JParse) (bchunks : List (List Nat)) :
    decodeByteChunks jp bchunks = decodeChunks jp (bchunks.map utf8Decode) := by
  unfold decodeByteChunks decodeChunks
  rw [List.foldl_map]
  rfl

/-- Whenever per-chunk decoding agrees with whole-stream decoding (chunk
boundaries on character boundaries), the chunking is irrelevant. -/
theorem decodeByteChunks_boundary (jp : JParse) (bchunks : List (List Nat))
    (hdec : utf8Decode bchunks.flatten = (bchunks.map utf8Decode).flatten) :
    decodeByteChunks jp bchunks = decodeByteChunks jp [bchunks.flatten] := by
  rw [decodeByteChunks_map, decodeChunks_flatten, ← hdec]
  rfl

/-- ASCII bytes decode one-for-one, from any starting output. -/
theorem u8_foldl_ascii :
    ∀ (bs : List Nat) (out : List Char), (∀ b ∈ bs, b < 0x80) →
      bs.foldl u8Step ⟨0, 0, out⟩ = ⟨0, 0, out ++ bs.map Char.ofNat⟩ := by
  intro bs
  induction bs with
  | nil => intro out _; simp
  | cons b rest ih =>
    intro out h
    have hb : b < 0x80 := h b (List.mem_cons_self b rest)
    have hr : ∀ x ∈ rest, x < 0x80 := fun x hx => h x (List.mem_cons_of_mem b hx)
    have hstep : u8Step ⟨0, 0, out⟩ b = ⟨0, 0, out ++ [Char.ofNat b]⟩ := by
      simp [u8Step, u8StartByte, hb]
    rw [List.foldl_cons, hstep, ih _ hr]
    simp

/-- An all-ASCII chunk decodes to its characters. -/
theorem utf8Decode_ascii (bs : List Nat) (h : ∀ b ∈ bs, b < 0x80) :
    utf8Decode bs = bs.map Char.ofNat := by
  simp only [utf8Decode]
  rw [u8_foldl_ascii bs [] h]
  simp

/-- Flattening single-byte chunks recovers the byte stream. -/
theorem oneByteChunks_flatten (bs : List Nat) : (oneByteChunks bs).flatten = bs := by
  induction bs with
  | nil => rfl
  | cons b rest ih =>
    simp only [oneByteChunks, List.map_cons, List.flatten_cons] at ih ⊢
    rw [ih]
    rfl

/-- Per-single-byte decoding of an ASCII stream also gives its characters. -/
theorem oneByteChunks_decode_ascii (bs : List Nat) (h : ∀ b ∈ bs, b < 0x80) :
    ((oneByteChunks bs).map utf8Decode).flatten = bs.map Char.ofNat := by
  induction bs with
  | nil => rfl
  | cons b rest ih =>
    have hb : b < 0x80 := h b (List.mem_cons_self b rest)
    have hr : ∀ x ∈ rest, x < 0x80 := fun x hx => h x (List.mem_cons_of_mem b hx)
    have h1 : utf8Decode [b] = [Char.ofNat b] := by
      simp [utf8Decode, u8Step, u8StartByte, hb]
    simp only [oneByteChunks, List.map_cons, List.flatten_cons] at ih ⊢
    rw [h1, ih hr]
    rfl

/-- C5 counterexample: the per-chunk `chunk.toString()` decode breaks the
claimed invariance on a byte stream containing a multi-byte character —
whole delivery answers `é`, 1-byte delivery answers two U+FFFD. -/
theorem C5_counterexample :
    decodeByteChunks jpByte [c5Bytes] = [eAcute]
    ∧ decodeByteChunks jpByte (oneByteChunks c5Bytes) = [fffd, fffd]
    ∧ decodeByteChunks jpByte [c5Bytes]
        ≠ decodeByteChunks jpByte (oneByteChunks c5Bytes) :=
  ⟨by decide, by decide, by decide⟩

/-- C5 amended: decoding is invariant under every re-chunking of the byte
stream whose chunks decode cleanly — chunk boundaries that respect UTF-8
character boundaries; in particular, for an all-ASCII byte stream,
delivering the bytes whole and in 1-byte chunks yields the identical
accumulated answer (a partial trailing line is still held across chunks and
never processed prematurely). -/
theorem C5_chunk_boundary_invariance (jp : JParse) :
    (∀ (bchunks : List (List Nat)),
        utf8Decode bchunks.flatten = (bchunks.map utf8Decode).flatten →
        decodeByteChunks jp bchunks = decodeByteChunks jp [bchunks.flatten])
    ∧ ∀ (bs : List Nat), (∀ b ∈ bs, b < 0x80) →
        decodeByteChunks jp [bs] = decodeByteChunks jp (oneByteChunks bs) := by
  constructor
  · exact decodeByteChunks_boundary jp
  · intro bs h
    have hdec : utf8Decode (oneByteChunks bs).flatten
        = ((oneByteChunks bs).map utf8Decode).flatten := by
      rw [oneByteChunks_flatten, utf8Decode_ascii bs h, oneByteChunks_decode_ascii bs h]
    have := decodeByteChunks_boundary jp (oneByteChunks bs) hdec
    rw [this, oneByteChunks_flatten]

/-- Witness for the amended C5 on a concrete ASCII stream. -/
theorem C5_chunk_boundary_invariance_witness :
    (∀ b ∈ asciiDemo, b < 0x80)
    ∧ decodeByteChunks jpDemo [asciiDemo] = decodeByteChunks jpDemo (oneByteChunks asciiDemo) :=
  ⟨by decide, (C5_chunk_boundary_invariance jpDemo).2 asciiDemo (by decide)⟩

/-! ## C2: header allow-list -/

/-- C2: for every header map (including a null capture), the filtered map's
entries are exactly the input entries whose lower-cased key is in the fixed
allow-set, values unchanged; no header outside the allow-set ever appears. -/
theorem C2_header_allowlist :
    getFilteredHeaders none = []
    ∧ ∀ (hs : List (Chars × Chars)) (kv : Chars × Chars),
        kv ∈ getFilteredHeaders (some hs)
          ↔ kv ∈ hs ∧ allowedHeaders.contains (lowerKey kv.1) = true := by
  refine ⟨rfl, ?_⟩
  intro hs kv
  simp [getFilteredHeaders, List.mem_filter]

/-! ## C6: solver output validation -/

/-- The model reply whose matrix has 3 rows but only 2 columns. -/
def lopsidedReply : JsonV :=
  JsonV.arr [JsonV.arr [JsonV.num 1, JsonV.num 0],
             JsonV.arr [JsonV.num 0, JsonV.num 1],
             JsonV.arr [JsonV.num 1, JsonV.num 1]]

/-- The model reply of the C6 center example. -/
def centerReply : JsonV :=
  JsonV.arr [JsonV.arr [JsonV.num 0, JsonV.num 0, JsonV.num 0],
             JsonV.arr [JsonV.num 0, JsonV.num 1, JsonV.num 0],
             JsonV.arr [JsonV.num 0, JsonV.num 0, JsonV.num 0]]

/-- Cell coercion preserves the number of rows. -/
theorem coerceRows_length : ∀ (rows : List JsonV) (g : Grid),
    coerceRows rows = some g → g.length = rows.length := by
  intro rows
  induction rows with
  | nil =>
    intro g h
    simp only [coerceRows, Option.some.injEq] at h
    subst h
    rfl
  | cons r rest ih =>
    intro g h
    cases r with
    | arr a =>
      simp only [coerceRows] at h
      cases hr : coerceRows rest with
      | none => rw [hr] at h; simp at h
      | some g' =>
        rw [hr] at h
        simp only [Option.map_some', Option.some.injEq] at h
        subst h
        simp [ih g' hr]
    | null => simp [coerceRows] at h
    | bool b => simp [coerceRows] at h
    | num n => simp [coerceRows] at h
    | str s2 => simp [coerceRows] at h
    | obj fs => simp [coerceRows] at h

/-- Whatever validation lets through has exactly 3 rows. -/
theorem validateMatrix_rows (cand : Option JsonV) (g : Grid)
    (h : validateMatrix cand = some g) : g.length = 3 := by
  cases cand with
  | none => simp [validateMatrix] at h
  | some v =>
    cases v with
    | arr rows =>
      simp only [validateMatrix] at h
      by_cases hl : rows.length = 3
      · rw [if_pos hl] at h
        rw [coerceRows_length rows g h, hl]
      · rw [if_neg hl] at h
        exact absurd h (by simp)
    | null => simp [validateMatrix] at h
    | bool b => simp [validateMatrix] at h
    | num n => simp [validateMatrix] at h
    | str s2 => simp [validateMatrix] at h
    | obj fs => simp [validateMatrix] at h

/-- C6 counterexample: the solver does NOT validate column count or cell
values — a 3-row reply with 2-column rows is returned as a solution that
is not a 3×3 `{0,1}` grid. -/
theorem C6_counterexample :
    solveCaptchaWithGemini 200 true (some lopsidedReply) none
      = some [[some 1, some 0], [some 0, some 1], [some 1, some 1]]
    ∧ ¬ isGrid3x3 [[some 1, some 0], [some 0, some 1], [some 1, some 1]] := by
  constructor
  · decide
  · decide

/-- C6 amended: `solveCaptchaWithGemini` returns no solution or a grid with
exactly 3 ROWS (row lengths and cell values are whatever the reply coerced
to); `[[1,0],[0,1]]` yields no solution, and the center example yields the
valid 3×3 grid with exactly one marked cell, at the center. -/
theorem C6_amended :
    (∀ (status : Nat) (hc : Bool) (parsed fb : Option JsonV) (g : Grid),
        solveCaptchaWithGemini status hc parsed fb = some g → g.length = 3)
    ∧ solveCaptchaWithGemini 200 true
        (some (JsonV.arr [JsonV.arr [JsonV.num 1, JsonV.num 0],
                          JsonV.arr [JsonV.num 0, JsonV.num 1]])) none = none
    ∧ solveCaptchaWithGemini 200 true (some centerReply) none = some gridCenter
    ∧ isGrid3x3 gridCenter
    ∧ gridCenter.flatten.count (some 1) = 1
    ∧ gridCenter.flatten[4]? = some (some 1) := by
  refine ⟨?_, by decide, by decide, by decide, by decide, by decide⟩
  intro status hc parsed fb g h
  unfold solveCaptchaWithGemini at h
  by_cases hs : status = 200
  · rw [if_pos hs] at h
    cases hc with
    | false => simp at h
    | true =>
      simp only [if_pos] at h
      unfold solveCaptchaFromReply at h
      exact validateMatrix_rows _ g h
  · rw [if_neg hs] at h
    exact absurd h (by simp)

/-- Witness for the amended C6 at a concrete accepted reply. -/
theorem C6_amended_witness :
    solveCaptchaWithGemini 200 true (some centerReply) none = some gridCenter
    ∧ gridCenter.length = 3 :=
  ⟨by decide, C6_amended.1 200 true (some centerReply) none gridCenter (by decide)⟩

/-! ## C9: actuation sequence -/

/-- The inner row loop enumerated from an arbitrary start column. -/
theorem rowClicks_enumFrom (i : Nat) :
    ∀ (row : List (Option Int)) (j : Nat),
      rowClicks i j row
        = (List.enumFrom j row).flatMap (fun jc =>
            if jc.2 = some 1 then
              [UIEvent.click (GRID_START_X + jc.1 * GRID_STEP_X + GRID_CENTER_OFFSET)
                             (GRID_START_Y + i * GRID_STEP_Y + GRID_CENTER_OFFSET),
               UIEvent.wait CLICK_DELAY]
            else []) := by
  intro row
  induction row with
  | nil => intro j; rfl
  | cons c rest ih =>
    intro j
    simp only [rowClicks, List.enumFrom, List.flatMap_cons, ih (j + 1)]
    by_cases hc : c = some 1
    · simp [hc, cellX, cellY]
    · simp [hc]

/-- The outer grid loop enumerated from an arbitrary start row. -/
theorem gridClicks_enumFrom :
    ∀ (m : Grid) (i : Nat),
      gridClicks i m
        = (List.enumFrom i m).flatMap (fun ir =>
            ir.2.enum.flatMap (fun jc =>
              if jc.2 = some 1 then
                [UIEvent.click (GRID_START_X + jc.1 * GRID_STEP_X + GRID_CENTER_OFFSET)
                               (GRID_START_Y + ir.1 * GRID_STEP_Y + GRID_CENTER_OFFSET),
                 UIEvent.wait CLICK_DELAY]
              else []) ) := by
  intro m
  induction m with
  | nil => intro i; rfl
  | cons row rest ih =>
    intro i
    simp only [gridClicks, List.enumFrom, List.flatMap_cons, ih (i + 1)]
    rw [rowClicks_enumFrom]
    rfl

/-- The code's intended action sequence is the spec-side one. -/
theorem captchaClickEvents_eq (m : Grid) :
    captchaClickEvents m = specActuationEvents m := by
  unfold captchaClickEvents specActuationEvents
  rw [gridClicks_enumFrom]
  rfl

/-- With no faults, every action runs in order. -/
theorem runEvents_ok (ok : Nat → Bool) (hok : ∀ n, ok n = true) :
    ∀ (evs : List UIEvent) (n : Nat), runEvents ok n evs = (evs, true) := by
  intro evs
  induction evs with
  | nil => intro n; rfl
  | cons e rest ih => intro n; simp [runEvents, hok n, ih (n + 1)]

/-- Whatever was performed is an unrolled-back prefix of the intended
sequence. -/
theorem runEvents_performed (ok : Nat → Bool) :
    ∀ (evs : List UIEvent) (n : Nat), ∃ rest, (runEvents ok n evs).1 ++ rest = evs := by
  intro evs
  induction evs with
  | nil => intro n; exact ⟨[], rfl⟩
  | cons e r ih =>
    intro n
    by_cases h : ok n = true
    · obtain ⟨rest, hr⟩ := ih (n + 1)
      exact ⟨rest, by simp [runEvents, h, hr]⟩
    · exact ⟨e :: r, by simp [runEvents, h]⟩

/-- C9: `clickCaptcha` visits the grid cells in row-major order, clicking
exactly the cells valued 1 at the deterministic grid coordinates with a
settle delay each, then the fixed submit coordinate with the longer delay,
returning `true`; an exception anywhere yields `false` without rolling back
the clicks already made. -/
theorem C9_actuation (ok : Nat → Bool) (m : Grid) :
    ((∀ n, ok n = true) → clickCaptcha ok m = (specActuationEvents m, true))
    ∧ ((clickCaptcha ok m).2 = false →
        ∃ rest, (clickCaptcha ok m).1 ++ rest = specActuationEvents m) := by
  constructor
  · intro hok
    unfold clickCaptcha
    rw [runEvents_ok ok hok, captchaClickEvents_eq]
  · intro _
    rw [← captchaClickEvents_eq]
    exact runEvents_performed ok (captchaClickEvents m) 0

/-- Witness for C9 on a fault-free page and the center grid. -/
theorem C9_actuation_witness :
    (∀ n : Nat, (fun _ : Nat => true) n = true)
    ∧ clickCaptcha (fun _ => true) gridCenter = (specActuationEvents gridCenter, true) :=
  ⟨fun _ => rfl, (C9_actuation (fun _ => true) gridCenter).1 (fun _ => rfl)⟩

/-! ## Handler-level lemmas -/

/-- A non-challenge answer exits the loop at once. -/
theorem captchaLoop_not_challenge (env : Env) (jp : JParse) (fuel : Nat)
    (a : Chars) (si di : Nat) (ha : a ≠ captchaSentinel) :
    captchaLoop env jp fuel a si di = (a, 0, 0) := by
  cases fuel with
  | zero => rfl
  | succ f => simp [captchaLoop, ha]

/-- One successful solve/act/resend cycle whose retry answer is clean. -/
theorem captchaLoop_retry (env : Env) (jp : JParse) (fuel si di : Nat)
    (g : Grid) (b : Chars)
    (hs : env.solve si = some g) (hact : env.act si = true)
    (hok : sendMessageE jp (env.resp di) = Except.ok b) (hb : b ≠ captchaSentinel) :
    captchaLoop env jp (fuel + 1) captchaSentinel si di = (b, 1, 1) := by
  simp [captchaLoop, hs, hact, hok, captchaLoop_not_challenge env jp fuel b (si + 1) (di + 1) hb]

/-- No grid from the solver: the thrown `Failed to solve captcha` breaks
the loop with no further send. -/
theorem captchaLoop_solveFail (env : Env) (jp : JParse) (fuel si di : Nat)
    (hs : env.solve si = none) :
    captchaLoop env jp (fuel + 1) captchaSentinel si di = (captchaSentinel, 0, 1) := by
  simp [captchaLoop, hs]

/-- Failed actuation: same immediate break, no further send. -/
theorem captchaLoop_actFail (env : Env) (jp : JParse) (fuel si di : Nat) (g : Grid)
    (hs : env.solve si = some g) (hact : env.act si = false) :
    captchaLoop env jp (fuel + 1) captchaSentinel si di = (captchaSentinel, 0, 1) := by
  simp [captchaLoop, hs, hact]

/-- The handler on a valid POST body, past the method and messages guards. -/
theorem handlerRun_post (env : Env) (jp : JParse) (msgs : List ChatMessage)
    (mdl : Option String) :
    handlerRun env jp ⟨"POST", BodyMessages.arr msgs, mdl⟩
      = match sendMessageE jp (env.resp 0) with
        | Except.error e => (HandlerResult.serverErr e, 1, 0)
        | Except.ok a0 =>
          let r := captchaLoop env jp MAX_CAPTCHA_ATTEMPTS a0 0 1
          if r.1 = captchaSentinel then (HandlerResult.captchaFailed, r.2.1 + 1, r.2.2)
          else (HandlerResult.success r.1 (modelChoice mdl), r.2.1 + 1, r.2.2) := rfl

/-- Loop calls are bounded by the fuel, in sends and in iterations. -/
theorem captchaLoop_bound (env : Env) (jp : JParse) :
    ∀ (fuel : Nat) (a : Chars) (si di : Nat),
      (captchaLoop env jp fuel a si di).2.1 ≤ fuel
      ∧ (captchaLoop env jp fuel a si di).2.2 ≤ fuel := by
  intro fuel
  induction fuel with
  | zero => intro a si di; simp [captchaLoop]
  | succ f ih =>
    intro a si di
    by_cases ha : a = captchaSentinel
    · subst ha
      cases hs : env.solve si with
      | none =>
        simp [captchaLoop, hs]
      | some g =>
        by_cases hact : env.act si
        · cases hsend : sendMessageE jp (env.resp di) with
          | ok b =>
            have hb := ih b (si + 1) (di + 1)
            simp [captchaLoop, hs, hact, hsend]
            omega
          | error e =>
            simp [captchaLoop, hs, hact, hsend]
        · simp [captchaLoop, hs, hact]
    · simp [captchaLoop, ha]

/-- The handler makes at most `MAX_CAPTCHA_ATTEMPTS + 1` sends and at most
`MAX_CAPTCHA_ATTEMPTS` challenge cycles. -/
theorem handlerRun_bound (env : Env) (jp : JParse) (req : HandlerReq) :
    (handlerRun env jp req).2.1 ≤ MAX_CAPTCHA_ATTEMPTS + 1
    ∧ (handlerRun env jp req).2.2 ≤ MAX_CAPTCHA_ATTEMPTS := by
  obtain ⟨method, messages, mdl⟩ := req
  by_cases hm1 : method = "OPTIONS"
  · simp [handlerRun, hm1]
  · by_cases hm2 : method = "POST"
    · cases messages with
      | arr msgs =>
        subst hm2
        rw [handlerRun_post]
        cases hsend : sendMessageE jp (env.resp 0) with
        | error e => simp [MAX_CAPTCHA_ATTEMPTS]
        | ok a0 =>
          have hb := captchaLoop_bound env jp MAX_CAPTCHA_ATTEMPTS a0 0 1
          by_cases hr : (captchaLoop env jp MAX_CAPTCHA_ATTEMPTS a0 0 1).1 = captchaSentinel <;>
            simp [hr] <;> omega
      | missing =>
        subst hm2
        have hh : handlerRun env jp ⟨"POST", BodyMessages.missing, mdl⟩
            = (HandlerResult.invalidMessages, 0, 0) := rfl
        simp [hh]
      | notArray =>
        subst hm2
        have hh : handlerRun env jp ⟨"POST", BodyMessages.notArray, mdl⟩
            = (HandlerResult.invalidMessages, 0, 0) := rfl
        simp [hh]
    · simp [handlerRun, hm1, hm2]

/-- C4: the orchestrator invokes `sendMessage` at most
`MAX_CAPTCHA_ATTEMPTS + 1` times, always reaches one of the terminal
outcomes, and the challenge counter strictly advances on every challenge
cycle (an entered loop iteration counts exactly when the answer was the
challenge signal). -/
theorem C4_attempt_budget (env : Env) (jp : JParse) (req : HandlerReq) :
    (handlerRun env jp req).2.1 ≤ MAX_CAPTCHA_ATTEMPTS + 1
    ∧ (handlerRun env jp req).2.2 ≤ MAX_CAPTCHA_ATTEMPTS
    ∧ ((∃ a m, (handlerRun env jp req).1 = HandlerResult.success a m)
       ∨ (handlerRun env jp req).1 = HandlerResult.invalidMessages
       ∨ (handlerRun env jp req).1 = HandlerResult.captchaFailed
       ∨ (∃ e, (handlerRun env jp req).1 = HandlerResult.serverErr e)
       ∨ (handlerRun env jp req).1 = HandlerResult.methodNotAllowed
       ∨ (handlerRun env jp req).1 = HandlerResult.optionsOk)
    ∧ (∀ (fuel : Nat) (a : Chars) (si di : Nat),
        0 < (captchaLoop env jp (fuel + 1) a si di).2.2 ↔ a = captchaSentinel) := by
  refine ⟨(handlerRun_bound env jp req).1, (handlerRun_bound env jp req).2, ?_, ?_⟩
  · cases h3 : (handlerRun env jp req).1 <;> simp
  · intro fuel a si di
    constructor
    · intro hpos
      by_contra ha
      rw [captchaLoop_not_challenge env jp (fuel + 1) a si di ha] at hpos
      simp at hpos
    · intro ha
      subst ha
      cases hs : env.solve si with
      | none => simp [captchaLoop, hs]
      | some g =>
        by_cases hact : env.act si
        · cases hsend : sendMessageE jp (env.resp di) with
          | ok b => simp [captchaLoop, hs, hact, hsend]
          | error e => simp [captchaLoop, hs, hact, hsend]
        · simp [captchaLoop, hs, hact]

/-- C3: an upstream 418 is interpreted as the challenge signal immediately,
independent of the body; a 418 first send followed by a clean 200 retry
ends in success with the retry's text, consuming exactly one challenge
cycle of budget (2 sends total). -/
theorem C3_challenge_418 :
    (∀ (jp : JParse) (resp : UpstreamResponse), resp.status = 418 →
        sendMessageE jp resp = Except.ok captchaSentinel)
    ∧ ∀ (env : Env) (jp : JParse) (msgs : List ChatMessage) (mdl : Option String)
        (g : Grid),
        (env.resp 0).status = 418 →
        (env.resp 1).status = 200 →
        decodeChunks jp (env.resp 1).body ≠ captchaSentinel →
        env.solve 0 = some g →
        env.act 0 = true →
        handlerRun env jp ⟨"POST", BodyMessages.arr msgs, mdl⟩
          = (HandlerResult.success (decodeChunks jp (env.resp 1).body)
              (modelChoice mdl), 2, 1) := by
  constructor
  · intro jp resp h
    simp [sendMessageE, h]
  · intro env jp msgs mdl g h418 h200 hne hsolve hact
    have h0 : sendMessageE jp (env.resp 0) = Except.ok captchaSentinel := by
      simp [sendMessageE, h418]
    have h1 : sendMessageE jp (env.resp 1)
        = Except.ok (decodeChunks jp (env.resp 1).body) := by
      simp [sendMessageE, h200]
    rw [handlerRun_post]
    simp only [h0]
    rw [show MAX_CAPTCHA_ATTEMPTS = 1 + 1 from rfl,
        captchaLoop_retry env jp 1 0 1 g _ hsolve hact h1 hne]
    simp [hne]

/-- Witness for C3 on the concrete 418-then-200 environment. -/
theorem C3_challenge_418_witness :
    ((envC3.resp 0).status = 418 ∧ (envC3.resp 1).status = 200
      ∧ decodeChunks jpDemo (envC3.resp 1).body ≠ captchaSentinel
      ∧ envC3.solve 0 = some [[some 1]] ∧ envC3.act 0 = true)
    ∧ handlerRun envC3 jpDemo ⟨"POST", BodyMessages.arr [], none⟩
        = (HandlerResult.success (decodeChunks jpDemo (envC3.resp 1).body)
            (modelChoice none), 2, 1) :=
  ⟨by decide, C3_challenge_418.2 envC3 jpDemo [] none [[some 1]]
    (by decide) (by decide) (by decide) (by decide) (by decide)⟩

/-- A challenge whose solve produces no grid fails the request at once. -/
theorem handler_challenge_solveFail (env : Env) (jp : JParse)
    (msgs : List ChatMessage) (mdl : Option String)
    (hc : sendMessageE jp (env.resp 0) = Except.ok captchaSentinel)
    (hs : env.solve 0 = none) :
    handlerRun env jp ⟨"POST", BodyMessages.arr msgs, mdl⟩
      = (HandlerResult.captchaFailed, 1, 1) := by
  rw [handlerRun_post]
  simp only [hc]
  rw [show MAX_CAPTCHA_ATTEMPTS = 1 + 1 from rfl,
      captchaLoop_solveFail env jp 1 0 1 hs]
  simp

/-- C7: a challenge with budget remaining whose solver produces no grid (or
whose actuation fails) terminates immediately in the challenge-failure
response: exactly the one initial send, one challenge cycle, and no extra
budget spent on the failure. -/
theorem C7_solver_abort (env : Env) (jp : JParse) (msgs : List ChatMessage)
    (mdl : Option String)
    (hc : sendMessageE jp (env.resp 0) = Except.ok captchaSentinel) :
    (env.solve 0 = none →
        handlerRun env jp ⟨"POST", BodyMessages.arr msgs, mdl⟩
          = (HandlerResult.captchaFailed, 1, 1))
    ∧ (∀ g : Grid, env.solve 0 = some g → env.act 0 = false →
        handlerRun env jp ⟨"POST", BodyMessages.arr msgs, mdl⟩
          = (HandlerResult.captchaFailed, 1, 1)) := by
  constructor
  · exact handler_challenge_solveFail env jp msgs mdl hc
  · intro g hs hact
    rw [handlerRun_post]
    simp only [hc]
    rw [show MAX_CAPTCHA_ATTEMPTS = 1 + 1 from rfl,
        captchaLoop_actFail env jp 1 0 1 g hs hact]
    simp

/-- Witness for C7 on the concrete all-418, solver-less environment. -/
theorem C7_solver_abort_witness :
    (sendMessageE jpDemo (envC7.resp 0) = Except.ok captchaSentinel
      ∧ envC7.solve 0 = none)
    ∧ handlerRun envC7 jpDemo ⟨"POST", BodyMessages.arr [], none⟩
        = (HandlerResult.captchaFailed, 1, 1) :=
  ⟨⟨rfl, rfl⟩, (C7_solver_abort envC7 jpDemo [] none rfl).1 rfl⟩

/-- C8: the model echoed by a success response is the requested model when
it is in `AVAILABLE_MODELS` and the configured default otherwise;
`"foo-bar"` is silently substituted with `gpt-5-mini`. -/
theorem C8_model_allowlist :
    (∀ (env : Env) (jp : JParse) (req : HandlerReq) (a : Chars) (m : String)
        (s t : Nat),
        handlerRun env jp req = (HandlerResult.success a m, s, t) →
          m = modelChoice req.model)
    ∧ modelChoice (some "foo-bar") = DEFAULT_MODEL
    ∧ modelChoice none = DEFAULT_MODEL
    ∧ modelChoice (some "gpt-4o-mini") = "gpt-4o-mini" := by
  refine ⟨?_, by decide, by decide, by decide⟩
  intro env jp req a m s t h
  obtain ⟨method, messages, mdl⟩ := req
  by_cases hm1 : method = "OPTIONS"
  · simp [handlerRun, hm1] at h
  · by_cases hm2 : method = "POST"
    · cases messages with
      | arr msgs =>
        subst hm2
        rw [handlerRun_post] at h
        cases hsend : sendMessageE jp (env.resp 0) with
        | error e => rw [hsend] at h; simp at h
        | ok a0 =>
          rw [hsend] at h
          by_cases hr : (captchaLoop env jp MAX_CAPTCHA_ATTEMPTS a0 0 1).1 = captchaSentinel
          · simp [hr] at h
          · simp [hr] at h
            exact h.1.2.symm
      | missing =>
        subst hm2
        have hh : handlerRun env jp ⟨"POST", BodyMessages.missing, mdl⟩
            = (HandlerResult.invalidMessages, 0, 0) := rfl
        rw [hh] at h
        simp at h
      | notArray =>
        subst hm2
        have hh : handlerRun env jp ⟨"POST", BodyMessages.notArray, mdl⟩
            = (HandlerResult.invalidMessages, 0, 0) := rfl
        rw [hh] at h
        simp at h
    · simp [handlerRun, hm1, hm2] at h

/-- Witness for C8 on a concrete request carrying the unknown model
`"foo-bar"`. -/
theorem C8_model_allowlist_witness :
    handlerRun envC8 (fun _ => none) ⟨"POST", BodyMessages.arr [], some "foo-bar"⟩
      = (HandlerResult.success [] "gpt-5-mini", 1, 0)
    ∧ "gpt-5-mini" = modelChoice (some "foo-bar") :=
  ⟨by decide, C8_model_allowlist.1 envC8 (fun _ => none)
    ⟨"POST", BodyMessages.arr [], some "foo-bar"⟩ [] "gpt-5-mini" 1 0 (by decide)⟩

/-- C10: the challenge signal is the in-band string `'CAPTCHA_REQUIRED'`:
a clean 200 stream whose decoded answer text equals the sentinel is
indistinguishable from a real challenge — `sendMessage` returns the same
value as for a 418, and the orchestrator enters the solve path (failing
the request when the solver finds nothing) instead of answering with that
text. -/
theorem C10_sentinel_ambiguity (env : Env) (jp : JParse) (msgs : List ChatMessage)
    (mdl : Option String)
    (h200 : (env.resp 0).status = 200)
    (hbody : decodeChunks jp (env.resp 0).body = captchaSentinel)
    (hsolve : env.solve 0 = none) :
    sendMessageE jp (env.resp 0) = Except.ok captchaSentinel
    ∧ (∀ (jp2 : JParse) (b : List Chars),
        sendMessageE jp (env.resp 0) = sendMessageE jp2 ⟨418, b⟩)
    ∧ handlerRun env jp ⟨"POST", BodyMessages.arr msgs, mdl⟩
        = (HandlerResult.captchaFailed, 1, 1) := by
  have hok : sendMessageE jp (env.resp 0) = Except.ok captchaSentinel := by
    simp [sendMessageE, h200, hbody]
  refine ⟨hok, ?_, handler_challenge_solveFail env jp msgs mdl hok hsolve⟩
  intro jp2 b
  rw [hok]
  simp [sendMessageE]

/-- Witness for C10 on the concrete sentinel-valued clean stream. -/
theorem C10_sentinel_ambiguity_witness :
    ((envC10.resp 0).status = 200
      ∧ decodeChunks jpDemo (envC10.resp 0).body = captchaSentinel
      ∧ envC10.solve 0 = none)
    ∧ handlerRun envC10 jpDemo ⟨"POST", BodyMessages.arr [], none⟩
        = (HandlerResult.captchaFailed, 1, 1) :=
  ⟨by decide, (C10_sentinel_ambiguity envC10 jpDemo [] none
    (by decide) (by decide) (by decide)).2.2⟩

end VercelDuck
